import Mathlib

/-
Verification of the webhook-saas dispatch library (src/src/index.ts) against its
specification. The TypeScript source is shallowly embedded: uuid generation is
modelled by a counter supply threaded in source evaluation order, the HMAC-SHA256
primitive and JSON serialization are external collaborators and the development is
parametric in them, the HTTP transport is a parameter returning Except, and the
asynchronous observer fan-out is modelled by an explicit event trace.
-/

namespace WebhookSaas

/-- Operating mode of a dispatcher, source type Environment. -/
inductive Environment
  | sandbox
  | production
  deriving DecidableEq, Repr

/-- String carried in the X-Environment header for a mode. -/
def envString : Environment → String
  | .sandbox => "sandbox"
  | .production => "production"

/-- Subscriber entry, source type Hook: a url and an optional event filter. -/
structure Hook where
  url : String
  events : Option (List String)
  deriving DecidableEq, Repr

/-- Wire envelope, source type Body. Uuids are modelled as counter values. The
data payload is opaque to the library and modelled as an optional string. -/
structure Body where
  id : Nat
  type : String
  idempotency_key : Nat
  api_version : String
  created : Nat
  data : Option String
  deriving DecidableEq, Repr

/-- The argument of post, source type Omit of Body without id and created. -/
structure PartialBody where
  type : String
  idempotency_key : Nat
  api_version : String
  data : Option String
  deriving DecidableEq, Repr

/-- Dispatcher state, source class WebhookClient. An observer callback is modelled
by the one datum that matters for the delivery protocol: whether its body suspends
(returns an awaitable that completes later) or completes synchronously. -/
structure WebhookClient where
  hooks : List Hook
  secret : String
  name : Option String
  mode : Environment
  api_version : String
  internalEvent : List Bool
  deriving DecidableEq, Repr

/-- Source constructor: hooks defaults to the empty list, mode defaults to
sandbox, the observer list starts empty. -/
def WebhookClient.construct (api_version : String) (secret : String)
    (hooks : Option (List Hook)) (mode : Option Environment)
    (name : Option String) : WebhookClient :=
  { hooks := hooks.getD [], secret := secret, name := name,
    mode := mode.getD .sandbox, api_version := api_version, internalEvent := [] }

/-- Source getSignature: the HMAC-SHA256 hex digest of body keyed by secret. The
digest primitive comes from the crypto library, so the development is parametric
in it (argument hmac). -/
def getSignature (hmac : String → String → String) (secret : String)
    (body : String) : String :=
  hmac secret body

/-- Source verifySignature: recompute the digest and compare for string equality. -/
def verifySignature (hmac : String → String → String)
    (secret signature body : String) : Bool :=
  getSignature hmac secret body == signature

/-- Source getWebhooks: filter the registry, keeping entries whose events list
contains the event and entries with no events filter. -/
def getWebhooks (c : WebhookClient) (event : String) : List Hook :=
  c.hooks.filter fun webhook =>
    match webhook.events with
    | some es => es.contains event
    | none => true

/-- Stated from the spec sentence for claim C4, to be compared with getWebhooks:
an entry matches when its events filter is absent or its events list contains the
event type. -/
def specMatches (event : String) (h : Hook) : Bool :=
  h.events.isNone || (h.events.getD []).contains event

/-- Claim C2: verifySignature succeeds exactly on the signature that getSignature
produces for the same secret and body, so the sign-then-verify round trip always
succeeds, for every HMAC primitive, secret, signature and body. -/
theorem verify_iff_sign_eq (hmac : String → String → String)
    (secret signature body : String) :
    verifySignature hmac secret (getSignature hmac secret body) body = true
      ∧ (verifySignature hmac secret signature body = true
          ↔ getSignature hmac secret body = signature) := by
  refine ⟨?_, ?_⟩ <;> simp [verifySignature]

/-- Claim C4: getWebhooks equals filtering the registry by the spec predicate
(events filter absent, or events list containing the event type), it is an
order-preserving selection from the registry (a sublist), and membership in the
result is exactly registry membership plus matching. The operation only reads the
registry and builds a fresh list, so the registry is not modified. -/
theorem getWebhooks_matches_spec (c : WebhookClient) (event : String) :
    getWebhooks c event = c.hooks.filter (specMatches event)
      ∧ List.Sublist (getWebhooks c event) c.hooks
      ∧ ∀ h, h ∈ getWebhooks c event ↔ h ∈ c.hooks ∧ specMatches event h = true := by
  have h1 : getWebhooks c event = c.hooks.filter (specMatches event) := by
    unfold getWebhooks
    refine List.filter_congr ?_
    intro x _
    cases hev : x.events <;> simp [specMatches, hev]
  refine ⟨h1, ?_, ?_⟩
  · rw [h1]
    exact List.filter_sublist c.hooks
  · intro h
    rw [h1, List.mem_filter]

/-- Observable event of a delivery: the transport call, the invocation (start) of a
registered observer with its arguments, and the completion (end) of an observer. -/
inductive Ev
  | fetchCall (url : String)
  | obsStart (i : Nat) (url : String) (b : Body) (r : String)
  | obsEnd (i : Nat)
  deriving DecidableEq, Repr

/-- Recognize observer-invocation events in a trace. -/
def isStart : Ev → Bool
  | .obsStart _ _ _ _ => true
  | _ => false

/-- Synchronous phase of the source line Promise.all(internalEvent.map(cb =>
cb(url, hookData, result))): each callback is invoked in registration order; a
callback that does not suspend (flag false) completes during its invocation, one
that suspends (flag true) completes later, in phaseB. -/
def phaseA (url : String) (b : Body) (r : String) : Nat → List Bool → List Ev
  | _, [] => []
  | i, a :: rest =>
      Ev.obsStart i url b r
        :: ((if a then [] else [Ev.obsEnd i]) ++ phaseA url b r (i + 1) rest)

/-- Completion phase: the suspended callbacks resume in the order their awaits
were reached, which is registration order. -/
def phaseB : Nat → List Bool → List Ev
  | _, [] => []
  | i, a :: rest => (if a then [Ev.obsEnd i] else []) ++ phaseB (i + 1) rest

/-- Full observer fan-out trace of one delivery: all callbacks are started (and the
synchronous ones finished) before any suspended callback completes, because the
source starts every callback inside map and only then awaits the joint promise. -/
def obsTraceAll (obs : List Bool) (url : String) (b : Body) (r : String) : List Ev :=
  phaseA url b r 0 obs ++ phaseB 0 obs

/-- Outbound HTTP request assembled by post. -/
structure Request where
  method : String
  headers : List (String × String)
  body : String
  deriving DecidableEq, Repr

/-- JS truthiness of the optional instance name in the source template literal:
truthy exactly when the name is present and not the empty string. -/
def nameTruthy : Option String → Bool
  | some s => s != ""
  | none => false

/-- Name of the signature header, from the source template literal. -/
def sigHeaderName (name : Option String) : String :=
  "X" ++ (if nameTruthy name then "-" ++ name.getD "" else "") ++ "-Signature"

/-- Envelope built at the start of post: a fresh id (uuid counter value gid), the
current time, and the fields of the partial body from trigger. -/
def mkEnvelope (pb : PartialBody) (gid now : Nat) : Body :=
  { id := gid, type := pb.type, idempotency_key := pb.idempotency_key,
    api_version := pb.api_version, created := now, data := pb.data }

/-- Request assembled by post around the serialized body string: the source
serializes once and uses the same string for the digest and the request body. -/
def mkRequest (hmac : String → String → String) (c : WebhookClient)
    (body : String) : Request :=
  { method := "POST",
    headers := [("Content-Type", "application/json"),
                ("X-Environment", envString c.mode),
                (sigHeaderName c.name, getSignature hmac c.secret body)],
    body := body }

deriving instance DecidableEq for Except

/-- One delivery: the request sent, the envelope it carried, the observable event
trace, and the settled transport outcome. -/
structure Delivery where
  url : String
  request : Request
  envelope : Body
  trace : List Ev
  result : Except String String
  deriving DecidableEq, Repr

/-- Source post: build the envelope, serialize it once, sign the serialized string
and send it as the request body; after the transport resolves, run the observer
fan-out; when the transport rejects, post rejects and no observer is invoked. -/
def post (hmac : String → String → String) (serialize : Body → String)
    (transport : String → Request → Except String String)
    (c : WebhookClient) (url : String) (pb : PartialBody)
    (gid now : Nat) : Delivery :=
  let hookData := mkEnvelope pb gid now
  let req := mkRequest hmac c (serialize hookData)
  match transport url req with
  | .error e =>
      { url := url, request := req, envelope := hookData,
        trace := [Ev.fetchCall url], result := .error e }
  | .ok r =>
      { url := url, request := req, envelope := hookData,
        trace := Ev.fetchCall url :: obsTraceAll c.internalEvent url hookData r,
        result := .ok r }

/-- Semantics of Promise.all over the delivery promises: resolve to the list of
values when all resolve, reject when any rejects. -/
def promiseAll : List (Except String String) → Except String (List String)
  | [] => .ok []
  | .error e :: _ => .error e
  | .ok a :: rest =>
      match promiseAll rest with
      | .ok as => .ok (a :: as)
      | .error e => .error e

/-- One delivery per matched hook, in match order, from the map inside trigger.
The uuid counter is threaded in source evaluation order: for each subscriber the
map callback draws the idempotency key first and post draws the envelope id right
after, so within a delivery the id is the key plus one, and the counter advances
by two per subscriber. The clock gives the Date.now() value of each delivery. -/
def fanout (hmac : String → String → String) (serialize : Body → String)
    (transport : String → Request → Except String String)
    (c : WebhookClient) (ty : String) (data : Option String) :
    List Hook → Nat → (Nat → Nat) → Nat → List Delivery
  | [], _, _, _ => []
  | h :: rest, g, clock, k =>
      post hmac serialize transport c h.url
          { type := ty, idempotency_key := g, api_version := c.api_version,
            data := data }
          (g + 1) (clock k)
        :: fanout hmac serialize transport c ty data rest (g + 2) clock (k + 1)

/-- Outcome of one trigger call: the deliveries performed and the settled value of
the Promise.all over them. -/
structure TriggerRun where
  deliveries : List Delivery
  result : Except String (List String)
  deriving Repr

/-- Source trigger: match the registry against the event type, deliver to every
matched hook, and settle as Promise.all over the deliveries. -/
def trigger (hmac : String → String → String) (serialize : Body → String)
    (transport : String → Request → Except String String)
    (c : WebhookClient) (ty : String) (data : Option String)
    (g : Nat) (clock : Nat → Nat) : TriggerRun :=
  let ds := fanout hmac serialize transport c ty data (getWebhooks c ty) g clock 0
  { deliveries := ds, result := promiseAll (ds.map fun d => d.result) }

/-- True when a settled outcome is a resolution. -/
def resultOk : Except String String → Bool
  | .ok _ => true
  | .error _ => false

/-- Value of a resolved outcome (default for a rejection). -/
def responseOf : Except String String → String
  | .ok r => r
  | .error _ => ""

/-- Public operation on a dispatcher, for the state-invariant claim: add a hook,
register an observer, or trigger an event. -/
inductive Op
  | add (url : String) (events : Option (List String))
  | onDone (isAsync : Bool)
  | trig (ty : String) (data : Option String)

/-- State transition of one public operation. Source add pushes onto hooks, source
onDone registration pushes onto internalEvent; trigger and post read fields but
assign none, so a trigger call leaves the dispatcher state unchanged. -/
def applyOp (c : WebhookClient) : Op → WebhookClient
  | .add url events => { c with hooks := c.hooks ++ [{ url := url, events := events }] }
  | .onDone cb => { c with internalEvent := c.internalEvent ++ [cb] }
  | .trig _ _ => c

theorem post_request (hmac : String → String → String) (serialize : Body → String)
    (transport : String → Request → Except String String)
    (c : WebhookClient) (url : String) (pb : PartialBody) (gid now : Nat) :
    (post hmac serialize transport c url pb gid now).request
      = mkRequest hmac c (serialize (mkEnvelope pb gid now)) := by
  simp only [post]
  split <;> rfl

theorem post_envelope (hmac : String → String → String) (serialize : Body → String)
    (transport : String → Request → Except String String)
    (c : WebhookClient) (url : String) (pb : PartialBody) (gid now : Nat) :
    (post hmac serialize transport c url pb gid now).envelope = mkEnvelope pb gid now := by
  simp only [post]
  split <;> rfl

theorem post_url_eq (hmac : String → String → String) (serialize : Body → String)
    (transport : String → Request → Except String String)
    (c : WebhookClient) (url : String) (pb : PartialBody) (gid now : Nat) :
    (post hmac serialize transport c url pb gid now).url = url := by
  simp only [post]
  split <;> rfl

theorem post_result (hmac : String → String → String) (serialize : Body → String)
    (transport : String → Request → Except String String)
    (c : WebhookClient) (url : String) (pb : PartialBody) (gid now : Nat) :
    (post hmac serialize transport c url pb gid now).result
      = transport url (mkRequest hmac c (serialize (mkEnvelope pb gid now))) := by
  simp only [post]
  split <;> simp_all

theorem post_trace_of_error (hmac : String → String → String) (serialize : Body → String)
    (transport : String → Request → Except String String)
    (c : WebhookClient) (url : String) (pb : PartialBody) (gid now : Nat) (e : String)
    (he : transport url (mkRequest hmac c (serialize (mkEnvelope pb gid now))) = .error e) :
    (post hmac serialize transport c url pb gid now).trace = [Ev.fetchCall url] := by
  simp [post, he]

theorem post_trace_of_ok (hmac : String → String → String) (serialize : Body → String)
    (transport : String → Request → Except String String)
    (c : WebhookClient) (url : String) (pb : PartialBody) (gid now : Nat) (r : String)
    (hr : transport url (mkRequest hmac c (serialize (mkEnvelope pb gid now))) = .ok r) :
    (post hmac serialize transport c url pb gid now).trace
      = Ev.fetchCall url :: obsTraceAll c.internalEvent url (mkEnvelope pb gid now) r := by
  simp [post, hr]

theorem fanout_length (hmac : String → String → String) (serialize : Body → String)
    (transport : String → Request → Except String String)
    (c : WebhookClient) (ty : String) (data : Option String) (hooks : List Hook) :
    ∀ (g : Nat) (clock : Nat → Nat) (k : Nat),
      (fanout hmac serialize transport c ty data hooks g clock k).length = hooks.length := by
  induction hooks with
  | nil => intro g clock k; rfl
  | cons h rest ih => intro g clock k; simp [fanout, ih]

theorem fanout_urls (hmac : String → String → String) (serialize : Body → String)
    (transport : String → Request → Except String String)
    (c : WebhookClient) (ty : String) (data : Option String) (hooks : List Hook) :
    ∀ (g : Nat) (clock : Nat → Nat) (k : Nat),
      ((fanout hmac serialize transport c ty data hooks g clock k).map fun d => d.url)
        = hooks.map fun h => h.url := by
  induction hooks with
  | nil => intro g clock k; rfl
  | cons h rest ih => intro g clock k; simp [fanout, ih, post_url_eq]

theorem fanout_mem_result (hmac : String → String → String) (serialize : Body → String)
    (transport : String → Request → Except String String)
    (c : WebhookClient) (ty : String) (data : Option String) (hooks : List Hook) :
    ∀ (g : Nat) (clock : Nat → Nat) (k : Nat),
      ∀ d ∈ fanout hmac serialize transport c ty data hooks g clock k,
        d.result = transport d.url d.request := by
  induction hooks with
  | nil => intro g clock k d hd; cases hd
  | cons h rest ih =>
    intro g clock k d hd
    rcases List.mem_cons.mp hd with hhead | htail
    · subst hhead
      rw [post_url_eq, post_request, post_result]
    · exact ih (g + 2) clock (k + 1) d htail

theorem fanout_key_bounds (hmac : String → String → String) (serialize : Body → String)
    (transport : String → Request → Except String String)
    (c : WebhookClient) (ty : String) (data : Option String) (hooks : List Hook) :
    ∀ (g : Nat) (clock : Nat → Nat) (k : Nat),
      ∀ d ∈ fanout hmac serialize transport c ty data hooks g clock k,
        g ≤ d.envelope.idempotency_key
          ∧ d.envelope.id = d.envelope.idempotency_key + 1 := by
  induction hooks with
  | nil => intro g clock k d hd; cases hd
  | cons h rest ih =>
    intro g clock k d hd
    rcases List.mem_cons.mp hd with hhead | htail
    · subst hhead
      rw [post_envelope]
      exact ⟨Nat.le_refl g, rfl⟩
    · have hb := ih (g + 2) clock (k + 1) d htail
      exact ⟨Nat.le_trans (by omega) hb.1, hb.2⟩

theorem fanout_pairwise_lt (hmac : String → String → String) (serialize : Body → String)
    (transport : String → Request → Except String String)
    (c : WebhookClient) (ty : String) (data : Option String) (hooks : List Hook) :
    ∀ (g : Nat) (clock : Nat → Nat) (k : Nat),
      (fanout hmac serialize transport c ty data hooks g clock k).Pairwise
        fun a b => a.envelope.idempotency_key < b.envelope.idempotency_key
          ∧ a.envelope.id < b.envelope.id := by
  induction hooks with
  | nil => intro g clock k; exact List.Pairwise.nil
  | cons h rest ih =>
    intro g clock k
    rw [fanout, List.pairwise_cons]
    refine ⟨?_, ih (g + 2) clock (k + 1)⟩
    intro b hb
    have hbnd := fanout_key_bounds hmac serialize transport c ty data rest
      (g + 2) clock (k + 1) b hb
    obtain ⟨hb1, hb2⟩ := hbnd
    rw [post_envelope]
    simp only [mkEnvelope]
    exact ⟨by omega, by omega⟩

theorem promiseAll_ok_iff (l : List (Except String String)) :
    promiseAll l = .ok (l.map responseOf) ↔ ∀ x ∈ l, resultOk x = true := by
  induction l with
  | nil => simp [promiseAll]
  | cons x rest ih =>
    cases x with
    | error e => simp [promiseAll, resultOk]
    | ok a =>
      cases hr : promiseAll rest with
      | ok as =>
        rw [hr] at ih
        simp only [promiseAll, hr, List.map_cons, List.mem_cons]
        constructor
        · intro hok
          have has : as = rest.map responseOf := by
            have := Except.ok.inj hok
            exact (List.cons.inj this).2
          intro x hx
          rcases hx with hx | hx
          · subst hx; rfl
          · exact (ih.mp (by rw [has])) x hx
        · intro hall
          have : ∀ x ∈ rest, resultOk x = true := fun x hx => hall x (Or.inr hx)
          have has := ih.mpr this
          rw [Except.ok.injEq] at has
          rw [has]
          rfl
      | error e =>
        rw [hr] at ih
        simp only [promiseAll, hr, List.map_cons, List.mem_cons]
        constructor
        · intro hok; cases hok
        · intro hall
          have : ∀ x ∈ rest, resultOk x = true := fun x hx => hall x (Or.inr hx)
          have := ih.mpr this
          cases this

theorem promiseAll_error_iff (l : List (Except String String)) :
    (∃ e, promiseAll l = .error e) ↔ ∃ x ∈ l, resultOk x = false := by
  induction l with
  | nil => simp [promiseAll]
  | cons x rest ih =>
    cases x with
    | error e =>
      simp only [promiseAll, List.mem_cons]
      constructor
      · intro _
        exact ⟨.error e, Or.inl rfl, rfl⟩
      · intro _
        exact ⟨e, rfl⟩
    | ok a =>
      cases hr : promiseAll rest with
      | ok as =>
        simp only [promiseAll, hr, List.mem_cons]
        constructor
        · rintro ⟨e, he⟩; cases he
        · rintro ⟨x, hx | hx, hxe⟩
          · subst hx; cases hxe
          · have : ∃ e, promiseAll rest = .error e := ih.mpr ⟨x, hx, hxe⟩
            rcases this with ⟨e, he⟩
            rw [hr] at he
            cases he
      | error e =>
        simp only [promiseAll, hr, List.mem_cons]
        constructor
        · intro _
          rcases ih.mp ⟨e, hr⟩ with ⟨x, hx, hxe⟩
          exact ⟨x, Or.inr hx, hxe⟩
        · intro _
          exact ⟨e, rfl⟩

theorem phaseA_filter_start (url : String) (b : Body) (r : String) (obs : List Bool) :
    ∀ k : Nat,
      (phaseA url b r k obs).filter isStart
        = (List.range' k obs.length).map fun i => Ev.obsStart i url b r := by
  induction obs with
  | nil => intro k; rfl
  | cons a rest ih =>
    intro k
    cases a <;> simp [phaseA, isStart, List.filter_append, List.range'_succ, ih]

theorem phaseB_filter_start (obs : List Bool) :
    ∀ k : Nat, (phaseB k obs).filter isStart = [] := by
  induction obs with
  | nil => intro k; rfl
  | cons a rest ih =>
    intro k
    cases a <;> simp [phaseB, isStart, List.filter_append, ih]

theorem obsTraceAll_filter_start (obs : List Bool) (url : String) (b : Body) (r : String) :
    (obsTraceAll obs url b r).filter isStart
      = (List.range obs.length).map fun i => Ev.obsStart i url b r := by
  simp [obsTraceAll, List.filter_append, phaseA_filter_start, phaseB_filter_start,
    List.range_eq_range']

/-- Concrete HMAC stand-in used for concrete evaluations. -/
def hmacC : String → String → String := fun s b => s ++ "|" ++ b

/-- Concrete serializer stand-in used for concrete evaluations. -/
def serC : Body → String := fun b => b.type ++ toString b.id

/-- Transport that always resolves with response r. -/
def okT : String → Request → Except String String := fun _ _ => .ok "r"

/-- Dispatcher with two subscribers that match every event. -/
def clientTwo : WebhookClient :=
  { hooks := [{ url := "u1", events := none }, { url := "u2", events := none }],
    secret := "s", name := none, mode := .sandbox, api_version := "v",
    internalEvent := [] }

/-- Claim C1 counterexample: a trigger call with two matched subscribers builds two
envelopes whose idempotency keys differ, because the source draws a fresh uuid for
the key inside the map callback, once per subscriber; this refutes the claim that
the key is identical across the envelopes of one call. -/
theorem idempotency_key_not_shared :
    (trigger hmacC serC okT clientTwo "e" none 0 (fun _ => 7)).deliveries.length = 2
      ∧ ¬ ((trigger hmacC serC okT clientTwo "e" none 0 (fun _ => 7)).deliveries.map
            fun d => d.envelope.idempotency_key).Pairwise Eq := by
  constructor
  · rfl
  · decide

/-- Claim C1 amended: within one trigger call every subscriber envelope carries its
own freshly drawn idempotency key and its own freshly drawn id; across the
deliveries of that call both fields are pairwise distinct (rather than the key
being shared and only the id distinct). -/
theorem envelope_keys_and_ids_distinct (hmac : String → String → String)
    (serialize : Body → String)
    (transport : String → Request → Except String String)
    (c : WebhookClient) (ty : String) (data : Option String)
    (g : Nat) (clock : Nat → Nat) :
    ((trigger hmac serialize transport c ty data g clock).deliveries).Pairwise
      fun a b => a.envelope.idempotency_key ≠ b.envelope.idempotency_key
        ∧ a.envelope.id ≠ b.envelope.id := by
  refine List.Pairwise.imp ?_
    (fanout_pairwise_lt hmac serialize transport c ty data (getWebhooks c ty) g clock 0)
  intro a b hab
  exact ⟨Nat.ne_of_lt hab.1, Nat.ne_of_lt hab.2⟩

/-- Claim C3: in every delivery the request body is the serialization of the
envelope of that delivery, and the signature header carries the digest of exactly
the request body string, so the signature is computed over the bytes sent. -/
theorem signature_over_sent_body (hmac : String → String → String)
    (serialize : Body → String)
    (transport : String → Request → Except String String)
    (c : WebhookClient) (url : String) (pb : PartialBody) (gid now : Nat) :
    (post hmac serialize transport c url pb gid now).request.body
        = serialize (post hmac serialize transport c url pb gid now).envelope
      ∧ (sigHeaderName c.name,
          getSignature hmac c.secret
            (post hmac serialize transport c url pb gid now).request.body)
        ∈ (post hmac serialize transport c url pb gid now).request.headers := by
  rw [post_request, post_envelope]
  exact ⟨rfl, by simp [mkRequest]⟩

/-- Claim C5: trigger produces exactly one delivery per matched subscriber in match
order (same length and same url sequence as the match result), each delivery
settles with the transport outcome for its own request, the call resolves to the
list of the transport responses exactly when every transport call resolved, and it
rejects exactly when some transport call rejected. -/
theorem trigger_responses_per_subscriber (hmac : String → String → String)
    (serialize : Body → String)
    (transport : String → Request → Except String String)
    (c : WebhookClient) (ty : String) (data : Option String)
    (g : Nat) (clock : Nat → Nat) :
    (trigger hmac serialize transport c ty data g clock).deliveries.length
        = (getWebhooks c ty).length
      ∧ ((trigger hmac serialize transport c ty data g clock).deliveries.map
            fun d => d.url)
        = ((getWebhooks c ty).map fun h => h.url)
      ∧ (∀ d ∈ (trigger hmac serialize transport c ty data g clock).deliveries,
          d.result = transport d.url d.request)
      ∧ ((trigger hmac serialize transport c ty data g clock).result
            = .ok ((trigger hmac serialize transport c ty data g clock).deliveries.map
                fun d => responseOf d.result)
          ↔ ∀ d ∈ (trigger hmac serialize transport c ty data g clock).deliveries,
              resultOk d.result = true)
      ∧ ((∃ e, (trigger hmac serialize transport c ty data g clock).result = .error e)
          ↔ ∃ d ∈ (trigger hmac serialize transport c ty data g clock).deliveries,
              resultOk d.result = false) := by
  refine ⟨fanout_length hmac serialize transport c ty data (getWebhooks c ty) g clock 0,
    fanout_urls hmac serialize transport c ty data (getWebhooks c ty) g clock 0,
    fanout_mem_result hmac serialize transport c ty data (getWebhooks c ty) g clock 0,
    ?_, ?_⟩
  · have h := promiseAll_ok_iff
      ((fanout hmac serialize transport c ty data (getWebhooks c ty) g clock 0).map
        fun d => d.result)
    rw [List.map_map] at h
    simpa [trigger, Function.comp] using h
  · have h := promiseAll_error_iff
      ((fanout hmac serialize transport c ty data (getWebhooks c ty) g clock 0).map
        fun d => d.result)
    simpa [trigger] using h

/-- Claim C6: when no subscriber matches the event type, trigger performs no
delivery, resolves successfully to the empty response list, and its event trace is
empty, so no transport call happens and no observer is invoked. -/
theorem trigger_zero_match (hmac : String → String → String)
    (serialize : Body → String)
    (transport : String → Request → Except String String)
    (c : WebhookClient) (ty : String) (data : Option String)
    (g : Nat) (clock : Nat → Nat)
    (h : getWebhooks c ty = []) :
    (trigger hmac serialize transport c ty data g clock).deliveries = []
      ∧ (trigger hmac serialize transport c ty data g clock).result = .ok []
      ∧ ((trigger hmac serialize transport c ty data g clock).deliveries.map
          fun d => d.trace).flatten = [] := by
  simp [trigger, h, fanout, promiseAll]

/-- Dispatcher with one subscriber listening only to event a. -/
def clientFiltered : WebhookClient :=
  { hooks := [{ url := "u", events := some ["a"] }], secret := "s", name := none,
    mode := .sandbox, api_version := "v", internalEvent := [] }

theorem trigger_zero_match_witness :
    (trigger hmacC serC okT clientFiltered "b" none 0 (fun _ => 0)).deliveries = []
      ∧ (trigger hmacC serC okT clientFiltered "b" none 0 (fun _ => 0)).result = .ok []
      ∧ ((trigger hmacC serC okT clientFiltered "b" none 0 (fun _ => 0)).deliveries.map
          fun d => d.trace).flatten = [] :=
  trigger_zero_match hmacC serC okT clientFiltered "b" none 0 (fun _ => 0) (by decide)

/-- Claim C7 amended: observers never run when the transport call rejects; when it
resolves, the delivery trace is the transport call followed by the observer
fan-out, in which every registered observer is started exactly once, with the
delivery url, envelope and response, in registration order — but the callbacks are
started jointly and awaited jointly (Promise.all), so a later observer may start
before an earlier asynchronous observer has completed, rather than each being
awaited before the next starts. -/
theorem post_observer_protocol (hmac : String → String → String)
    (serialize : Body → String)
    (transport : String → Request → Except String String)
    (c : WebhookClient) (url : String) (pb : PartialBody) (gid now : Nat) :
    (∀ e, transport url (post hmac serialize transport c url pb gid now).request
            = .error e →
        (post hmac serialize transport c url pb gid now).trace = [Ev.fetchCall url])
      ∧ (∀ r, transport url (post hmac serialize transport c url pb gid now).request
            = .ok r →
          (post hmac serialize transport c url pb gid now).trace
              = Ev.fetchCall url
                  :: obsTraceAll c.internalEvent url
                    (post hmac serialize transport c url pb gid now).envelope r
            ∧ ((post hmac serialize transport c url pb gid now).trace.filter isStart)
              = (List.range c.internalEvent.length).map
                  fun i => Ev.obsStart i url
                    (post hmac serialize transport c url pb gid now).envelope r) := by
  rw [post_request, post_envelope]
  constructor
  · intro e he
    exact post_trace_of_error hmac serialize transport c url pb gid now e he
  · intro r hr
    have ht := post_trace_of_ok hmac serialize transport c url pb gid now r hr
    refine ⟨ht, ?_⟩
    rw [ht]
    simp [isStart, obsTraceAll_filter_start]

/-- Partial body as trigger would hand it to post for the first subscriber. -/
def pbC : PartialBody :=
  { type := "e", idempotency_key := 0, api_version := "v", data := none }

/-- Dispatcher with one catch-all subscriber and one synchronous observer. -/
def clientOneObs : WebhookClient :=
  { hooks := [{ url := "u", events := none }], secret := "s", name := none,
    mode := .sandbox, api_version := "v", internalEvent := [false] }

theorem post_observer_protocol_witness :
    (post hmacC serC okT clientOneObs "u" pbC 1 7).trace.filter isStart
      = (List.range clientOneObs.internalEvent.length).map
          fun i => Ev.obsStart i "u"
            (post hmacC serC okT clientOneObs "u" pbC 1 7).envelope "r" :=
  ((post_observer_protocol hmacC serC okT clientOneObs "u" pbC 1 7).2 "r" rfl).2

/-- Dispatcher with one catch-all subscriber and two asynchronous observers. -/
def clientTwoAsyncObs : WebhookClient :=
  { hooks := [{ url := "u", events := none }], secret := "s", name := none,
    mode := .sandbox, api_version := "v", internalEvent := [true, true] }

/-- Envelope of the single delivery in the run below. -/
def envTwoObs : Body :=
  { id := 1, type := "e", idempotency_key := 0, api_version := "v", created := 5,
    data := none }

/-- Claim C7 counterexample: in a delivery with two asynchronous observers, the
second observer starts strictly before the first observer has completed, because
the source starts all callbacks inside map and then awaits them jointly with
Promise.all; so the claim that each observer is awaited before the next starts
fails at this input. -/
theorem observers_not_sequential :
    Ev.obsEnd 0 ∈ (post hmacC serC okT clientTwoAsyncObs "u" pbC 1 5).trace
      ∧ Ev.obsStart 1 "u" envTwoObs "r"
          ∈ (post hmacC serC okT clientTwoAsyncObs "u" pbC 1 5).trace
      ∧ (post hmacC serC okT clientTwoAsyncObs "u" pbC 1 5).trace.indexOf
            (Ev.obsStart 1 "u" envTwoObs "r")
        < (post hmacC serC okT clientTwoAsyncObs "u" pbC 1 5).trace.indexOf
            (Ev.obsEnd 0) := by
  refine ⟨by decide, by decide, by decide⟩

/-- Claim C8 amended: the signature header is named X-Signature when the instance
name is absent or is the empty string, and X-Name-Signature when a nonempty name
is configured; in every delivery the request headers contain that header, and its
value verifies via verifySignature against the sent body with the dispatcher
secret. -/
theorem signature_header_named_and_verifies (hmac : String → String → String)
    (serialize : Body → String)
    (transport : String → Request → Except String String)
    (c : WebhookClient) (url : String) (pb : PartialBody) (gid now : Nat) :
    sigHeaderName none = "X-Signature"
      ∧ (∀ s : String, sigHeaderName (some s)
          = if s = "" then "X-Signature" else "X-" ++ s ++ "-Signature")
      ∧ (sigHeaderName c.name,
          getSignature hmac c.secret
            (post hmac serialize transport c url pb gid now).request.body)
        ∈ (post hmac serialize transport c url pb gid now).request.headers
      ∧ verifySignature hmac c.secret
          (getSignature hmac c.secret
            (post hmac serialize transport c url pb gid now).request.body)
          (post hmac serialize transport c url pb gid now).request.body = true := by
  refine ⟨rfl, ?_, ?_, ?_⟩
  · intro s
    by_cases hs : s = ""
    · subst hs; rfl
    · rw [if_neg hs]
      have hx : "X" ++ ("-" ++ s) = "X-" ++ s := by
        rw [← String.append_assoc]
        have hx2 : "X" ++ "-" = "X-" := rfl
        rw [hx2]
      simp [sigHeaderName, nameTruthy, hs, hx]
  · rw [post_request]
    simp [mkRequest]
  · simp [verifySignature]

/-- Dispatcher constructed with the empty string as its instance name. -/
def clientEmptyName : WebhookClient :=
  { hooks := [], secret := "s", name := some "", mode := .sandbox,
    api_version := "v", internalEvent := [] }

/-- Claim C8 counterexample: with the name configured as the empty string, the
delivery request carries the header X-Signature and no header X--Signature, so the
clause that a configured name yields the header X-Name-Signature fails at this
input. -/
theorem empty_name_header_fallback :
    ((post hmacC serC okT clientEmptyName "u" pbC 0 7).request.headers.map
        fun p => p.1)
      = ["Content-Type", "X-Environment", "X-Signature"]
      ∧ (((post hmacC serC okT clientEmptyName "u" pbC 0 7).request.headers.map
          fun p => p.1).contains "X--Signature") = false := by
  refine ⟨by decide, by decide⟩

/-- Claim C10: a dispatcher whose configured name is the empty string behaves at
the wire exactly like one with no name: the delivery it produces is identical,
and its signature header is named X-Signature. -/
theorem empty_name_behaves_like_absent (hmac : String → String → String)
    (serialize : Body → String)
    (transport : String → Request → Except String String)
    (hooks : List Hook) (secret : String) (mode : Environment) (api : String)
    (obs : List Bool) (url : String) (pb : PartialBody) (gid now : Nat) :
    post hmac serialize transport
        { hooks := hooks, secret := secret, name := some "", mode := mode,
          api_version := api, internalEvent := obs } url pb gid now
      = post hmac serialize transport
        { hooks := hooks, secret := secret, name := none, mode := mode,
          api_version := api, internalEvent := obs } url pb gid now
      ∧ sigHeaderName (some "") = "X-Signature" := by
  exact ⟨rfl, rfl⟩

/-- Claim C9: across any sequence of public operations (add, observer
registration, trigger), the configuration fields api_version, secret, mode and
name keep their values, the registry only grows by appended entries, and the
observer list only grows by appended callbacks. -/
theorem config_immutable_under_ops (c : WebhookClient) (ops : List Op) :
    (ops.foldl applyOp c).api_version = c.api_version
      ∧ (ops.foldl applyOp c).secret = c.secret
      ∧ (ops.foldl applyOp c).mode = c.mode
      ∧ (ops.foldl applyOp c).name = c.name
      ∧ (∃ hs, (ops.foldl applyOp c).hooks = c.hooks ++ hs)
      ∧ (∃ os, (ops.foldl applyOp c).internalEvent = c.internalEvent ++ os) := by
  induction ops generalizing c with
  | nil => simp
  | cons op rest ih =>
    rw [List.foldl_cons]
    obtain ⟨h1, h2, h3, h4, ⟨hs, hh⟩, ⟨os, ho⟩⟩ := ih (applyOp c op)
    cases op with
    | add url events =>
      refine ⟨h1, h2, h3, h4,
        ⟨{ url := url, events := events } :: hs, ?_⟩, ⟨os, ho⟩⟩
      rw [hh]
      simp [applyOp]
    | onDone cb =>
      refine ⟨h1, h2, h3, h4, ⟨hs, hh⟩, ⟨cb :: os, ?_⟩⟩
      rw [ho]
      simp [applyOp]
    | trig ty data =>
      exact ⟨h1, h2, h3, h4, ⟨hs, hh⟩, ⟨os, ho⟩⟩

end WebhookSaas
